import Mathlib

/-!
Verification of the flight-search aggregation service.

This file shallowly embeds the core of the repository in Lean 4:

* `av_parser/models.py` — the normalized domain model (`FlightSegment`,
  `FlightOffer`, `ServiceResponse`, ...);
* `src/fly_search/domain/services/converter.py` — `FlightOfferConverter`,
  the pure chunk-to-domain conversion;
* `src/fly_search/domain/services/flight_search.py` — `FlightSearchService`,
  the search orchestrator (`get_offers`, `_convert_chunk`, `_merge_offers`);
* `src/fly_search/infrastructure/background_task_manager.py` —
  `BackgroundTaskManager` (`start_task`, `get_task_response`).

Python dictionaries are modelled as association lists (`List (String × β)`)
preserving insertion order; assignment to an existing key updates the value
in place, assignment to a fresh key appends at the end, exactly as CPython
dictionaries behave.  Absent or `None` dictionary entries are modelled with
`Option`.  Python exceptions raised by an injected collaborator are modelled
with `Except`.
-/

namespace FlySearch

/-- Dictionary lookup: first entry whose key matches, as CPython `dict.get`. -/
def al_get {β : Type} (k : String) : List (String × β) → Option β
  | [] => none
  | kv :: rest => if kv.1 = k then some kv.2 else al_get k rest

/-- Dictionary membership test, as CPython `key in dict`. -/
def al_has {β : Type} (k : String) : List (String × β) → Bool
  | [] => false
  | kv :: rest => if kv.1 = k then true else al_has k rest

/-- Overwrite the value stored under `k` (every matching entry), keeping positions. -/
def al_update {β : Type} (k : String) (v : β) : List (String × β) → List (String × β)
  | [] => []
  | kv :: rest =>
    if kv.1 = k then (kv.1, v) :: al_update k v rest else kv :: al_update k v rest

/-- Dictionary assignment `d[k] = v`: update in place when the key exists,
append at the end otherwise, as CPython dictionaries do. -/
def al_set {β : Type} (l : List (String × β)) (k : String) (v : β) : List (String × β) :=
  if al_has k l then al_update k v l else l ++ [(k, v)]

/-- The keys of an association list, in order. -/
def al_keys {β : Type} (l : List (String × β)) : List String :=
  l.map Prod.fst

/-- A dictionary image has no duplicate keys. -/
def al_nodup {β : Type} (l : List (String × β)) : Prop :=
  (al_keys l).Nodup

theorem al_has_false_ne {β : Type} {k : String} {l : List (String × β)}
    (h : al_has k l = false) : ∀ kv ∈ l, kv.1 ≠ k := by
  induction l with
  | nil => intro kv hkv; cases hkv
  | cons hd tl ih =>
    intro kv hkv
    by_cases hh : hd.1 = k
    · simp [al_has, hh] at h
    · rcases List.mem_cons.mp hkv with h1 | h2
      · simpa [h1] using hh
      · exact ih (by simpa [al_has, hh] using h) kv h2

theorem al_get_append_left {β : Type} {k : String} {l : List (String × β)}
    (h : al_has k l = false) (m : List (String × β)) :
    al_get k (l ++ m) = al_get k m := by
  induction l with
  | nil => rfl
  | cons hd tl ih =>
    by_cases hh : hd.1 = k
    · simp [al_has, hh] at h
    · simpa [al_get, hh] using ih (by simpa [al_has, hh] using h)

theorem al_get_update_self {β : Type} {k : String} {v : β} {l : List (String × β)}
    (h : al_has k l = true) : al_get k (al_update k v l) = some v := by
  induction l with
  | nil => simp [al_has] at h
  | cons hd tl ih =>
    by_cases hh : hd.1 = k
    · simp [al_update, al_get, hh]
    · simp only [al_update, if_neg hh, al_get, if_neg hh]
      exact ih (by simpa [al_has, hh] using h)

theorem al_get_update_ne {β : Type} {k k' : String} (hne : k' ≠ k) (v : β)
    (l : List (String × β)) : al_get k (al_update k' v l) = al_get k l := by
  have hne2 : k ≠ k' := Ne.symm hne
  induction l with
  | nil => rfl
  | cons hd tl ih =>
    by_cases hh : hd.1 = k'
    · have hdk : hd.1 ≠ k := by rw [hh]; exact hne
      simp [al_update, al_get, hh, hdk, hne, hne2, ih]
    · by_cases hk : hd.1 = k
      · simp [al_update, al_get, hh, hk, hne, hne2]
      · simp [al_update, al_get, hh, hk, ih]

theorem al_get_set_self {β : Type} (l : List (String × β)) (k : String) (v : β) :
    al_get k (al_set l k v) = some v := by
  unfold al_set
  by_cases h : al_has k l
  · rw [if_pos h]; exact al_get_update_self h
  · rw [if_neg h]
    rw [al_get_append_left (by simpa using h)]
    simp [al_get]

theorem al_get_append_single_ne {β : Type} {k k' : String} (hne : k' ≠ k) (v : β)
    (l : List (String × β)) : al_get k (l ++ [(k', v)]) = al_get k l := by
  induction l with
  | nil => simp [al_get, hne]
  | cons hd tl ih =>
    by_cases hk : hd.1 = k
    · simp [al_get, hk]
    · simpa [al_get, hk] using ih

theorem al_get_set_ne {β : Type} (l : List (String × β)) {k k' : String}
    (hne : k' ≠ k) (v : β) : al_get k (al_set l k' v) = al_get k l := by
  unfold al_set
  by_cases h : al_has k' l
  · rw [if_pos h]; exact al_get_update_ne hne v l
  · rw [if_neg h]; exact al_get_append_single_ne hne v l

theorem al_keys_update {β : Type} (k : String) (v : β) (l : List (String × β)) :
    al_keys (al_update k v l) = al_keys l := by
  induction l with
  | nil => rfl
  | cons hd tl ih =>
    by_cases hh : hd.1 = k
    · simp [al_update, al_keys, hh] at ih ⊢; exact ih
    · simp [al_update, al_keys, hh] at ih ⊢; exact ih

theorem al_nodup_set {β : Type} {l : List (String × β)} (h : al_nodup l)
    (k : String) (v : β) : al_nodup (al_set l k v) := by
  unfold al_set
  by_cases hh : al_has k l
  · rw [if_pos hh]
    unfold al_nodup
    rw [al_keys_update]
    exact h
  · rw [if_neg hh]
    unfold al_nodup al_keys at h ⊢
    rw [List.map_append]
    simp only [List.map_cons, List.map_nil]
    rw [List.nodup_append]
    refine ⟨h, List.nodup_singleton k, ?_⟩
    intro a ha hb
    simp only [List.mem_singleton] at hb
    subst hb
    rcases List.mem_map.mp ha with ⟨kv, hkv, hfst⟩
    have := al_has_false_ne (by simpa using hh) kv hkv
    rw [hfst] at this
    exact this rfl

theorem al_get_of_mem_nodup {β : Type} {l : List (String × β)} {k : String} {v : β}
    (hn : al_nodup l) (hm : (k, v) ∈ l) : al_get k l = some v := by
  induction l with
  | nil => cases hm
  | cons hd tl ih =>
    unfold al_nodup al_keys at hn
    simp only [List.map_cons, List.nodup_cons] at hn
    rcases List.mem_cons.mp hm with h1 | h2
    · simp [al_get, ← h1]
    · by_cases hh : hd.1 = k
      · exfalso
        apply hn.1
        rw [hh]
        exact List.mem_map.mpr ⟨(k, v), h2, rfl⟩
      · simpa [al_get, hh] using ih hn.2 h2

/-! ## Domain model (`av_parser/models.py`) -/

/-- `BaggageInfo(BaseModel)`: piece count and optional weight. -/
structure BaggageInfo where
  count : Int
  weight : Option Int
deriving DecidableEq

/-- `Baggage(BaseModel)`: hand baggage and checked baggage allowances. -/
structure Baggage where
  handbags : BaggageInfo
  baggage : BaggageInfo
deriving DecidableEq

/-- `RuleInfo(BaseModel)`: availability of a fare rule. -/
structure RuleInfo where
  available : Bool
  is_from_config : Bool
deriving DecidableEq

/-- `Rules(BaseModel)`: return and change rules of a fare. -/
structure Rules where
  return_before_flight : RuleInfo
  change_before_flight : RuleInfo
deriving DecidableEq

/-- `FlightSegment(BaseModel)`: one flown leg. -/
structure FlightSegment where
  departure : String
  arrival : String
  departure_date : String
  arrival_date : String
  duration : Int
  number : String
  marketing_carrier : String
  operating_carrier : String
deriving DecidableEq

/-- `FlightInfo(BaseModel)`: the ordered forward segments of an offer. -/
structure FlightInfo where
  forward : List FlightSegment
deriving DecidableEq

/-- `FareInfo(BaseModel)`: fare code, trip class, baggage and rules. -/
structure FareInfo where
  fare_code : String
  trip_class : String
  baggage : Baggage
  rules : Rules
deriving DecidableEq

/-- `Fare(BaseModel)`: one priced fare line; `prices` is a provider→price dict. -/
structure Fare where
  fare_key : String
  fare_info : List FareInfo
  prices : List (String × Int)
deriving DecidableEq

/-- `FlightOffer(BaseModel)`: one priced itinerary. -/
structure FlightOffer where
  is_vtrip : Bool
  key : String
  flight_info : FlightInfo
  fares : List Fare
  prices : List (String × Int)
  duration : Int
  min_price : Int
  min_provider : String
deriving DecidableEq

/-- Grouped offers, `dict[str, list[FlightOffer]]` keyed by route key. -/
abbrev OffersMap := List (String × List FlightOffer)

/-- `ServiceResponse(BaseModel)`: the API-level result. -/
structure ServiceResponse where
  success : Bool
  pid : String
  result : OffersMap
deriving DecidableEq

/-! ## Provider chunk input model

The provider chunk is an untyped nested dictionary in the source
(`ProviderChunk = dict[str, Any]`).  We model exactly the shape the
converter reads: every field access the converter performs with
`dict.get` becomes an `Option` field; a nested `.get(...).get(...)`
chain over a sub-dictionary becomes a small record of `Option` fields.
Text timestamps are modelled directly as strings (`_format_date`'s
numeric-epoch branch is not exercised by any converter property proved
here, and absent/`None` values map to `none`). -/

/-- A carrier designator sub-dictionary: `{carrier, number}`. -/
structure Designator where
  carrier : Option String
  number : Option String
deriving DecidableEq

/-- One entry of a proposal's `flight_terms`, keyed by stringified leg index. -/
structure FlightTerm where
  marketing_carrier_designator : Option Designator
  trip_class : Option String
deriving DecidableEq

/-- The `price` sub-dictionary of a proposal: `{value}`. -/
structure PriceInfo where
  value : Option Int
deriving DecidableEq

/-- A `handbags`/`baggage` sub-dictionary of a minimum fare.  The `weight`
field already stands for the result of `_int_or_none`: `none` when the raw
value is absent or not a number. -/
structure BagSpec where
  count : Option Int
  weight : Option Int
deriving DecidableEq

/-- A fare-rule sub-dictionary; fields are the truthiness images taken by
`bool(data.get("available"))` and `bool(data.get("is_from_config"))`. -/
structure RuleSpec where
  available : Bool
  is_from_config : Bool
deriving DecidableEq

/-- The `minimum_fare` sub-dictionary of a proposal. -/
structure MinFare where
  fare_code : Option String
  code : Option String
  fare_key : Option String
  handbags : Option BagSpec
  baggage : Option BagSpec
  return_before_flight : Option RuleSpec
  change_before_flight : Option RuleSpec
deriving DecidableEq

/-- One proposal of a ticket.  `agent_id` holds the string image produced by
`str(proposal.get("agent_id"))` when the key is present; an absent key is
`none` (which `str` turns into `"None"`). -/
structure Proposal where
  agent_id : Option String
  flight_terms : List (String × FlightTerm)
  price : Option PriceInfo
  minimum_fare : Option MinFare
deriving DecidableEq

/-- One entry of a ticket's `segments` list: the flight-leg indices. -/
structure TicketSegment where
  flights : List Int
deriving DecidableEq

/-- One ticket of a chunk. -/
structure Ticket where
  proposals : List Proposal
  segments : List TicketSegment
  signature : Option String
  hashsum : Option String
  id : Option String
deriving DecidableEq

/-- One entry of the chunk's `flight_legs` list. -/
structure FlightLeg where
  origin : Option String
  destination : Option String
  local_departure_date_time : Option String
  local_arrival_date_time : Option String
  departure_unix_timestamp : Option Int
  arrival_unix_timestamp : Option Int
  operating_carrier_designator : Option Designator
deriving DecidableEq

/-- One entry of the chunk's `agents` dictionary; `label` collapses the
`.get("label", {}).get("ru", {}).get("default")` chain to its result. -/
structure AgentData where
  label : Option String
deriving DecidableEq

/-- A provider chunk as read by the converter.  `tickets = none` models a
chunk without a `"tickets"` key (including the empty, falsy chunk). -/
structure ProviderChunk where
  tickets : Option (List Ticket)
  flight_legs : List FlightLeg
  agents : List (String × AgentData)
deriving DecidableEq

/-! ## Converter (`FlightOfferConverter`) -/

/-- Python `a or b` on an optional string: `b` when `a` is absent or empty. -/
def or_string (a : Option String) (b : String) : String :=
  match a with
  | none => b
  | some s => if s = "" then b else s

/-- `_extract_agents`: map each agent id to `label or str(agent_id)`. -/
def extract_agents (chunk : ProviderChunk) : List (String × String) :=
  chunk.agents.foldl (fun acc kv => al_set acc kv.1 (or_string kv.2.label kv.1)) []

/-- `_agent_key`: resolve an agent id to its label, falling back to the id. -/
def agent_key (agent_id : String) (agents : List (String × String)) : String :=
  (al_get agent_id agents).getD agent_id

/-- `str(proposal.get("agent_id"))`: stringify, `"None"` when absent. -/
def agent_id_str (p : Proposal) : String :=
  p.agent_id.getD "None"

/-- `int(proposal.get("price", {}).get("value", 0))`. -/
def price_value (p : Proposal) : Int :=
  ((p.price.getD ⟨none⟩).value).getD 0

/-- `_collect_prices`: one dictionary entry per proposal, keyed by resolved
agent label; a later proposal with the same label overwrites the earlier
price (CPython dictionary assignment). -/
def collect_prices (proposals : List Proposal) (agents : List (String × String)) :
    List (String × Int) :=
  proposals.foldl (fun acc p => al_set acc (agent_key (agent_id_str p) agents) (price_value p)) []

/-- `_extract_min_price`: `("", 0)` on an empty dictionary, otherwise
`min(prices, key=prices.get)` — the first key attaining the minimal value —
paired with its price. -/
def extract_min_price (prices : List (String × Int)) : String × Int :=
  match prices with
  | [] => ("", 0)
  | p :: ps => ps.foldl (fun best q => if q.2 < best.2 then q else best) p

/-- `_compute_duration`: 0 when either timestamp is falsy (absent or zero),
otherwise `int((arrival - departure)/60)` — division truncated toward zero. -/
def compute_duration (departure_ts arrival_ts : Option Int) : Int :=
  match departure_ts, arrival_ts with
  | some d, some a => if d = 0 ∨ a = 0 then 0 else Int.tdiv (a - d) 60
  | _, _ => 0

/-- `_is_vtrip`: more than one segment and some segment whose marketing
carrier differs from its own operating carrier. -/
def is_vtrip (segments : List FlightSegment) : Bool :=
  if segments.length ≤ 1 then false
  else segments.any (fun seg => seg.marketing_carrier != seg.operating_carrier)

/-- `_format_date` on a textual or absent value: empty string when falsy,
otherwise the text with the separating space replaced by `T`. -/
def format_date (value : Option String) : String :=
  match value with
  | none => ""
  | some s => String.mk (s.data.map (fun c => if c = ' ' then 'T' else c))

/-- `_safe_index`: `None` outside `[0, len)`, the element otherwise. -/
def safe_index {α : Type} (items : List α) (index : Int) : Option α :=
  if index < 0 ∨ (items.length : Int) ≤ index then none
  else items[index.toNat]?

/-- `.get("carrier", "")` on an optional designator dictionary. -/
def designator_carrier (d : Option Designator) : String :=
  ((d.getD ⟨none, none⟩).carrier).getD ""

/-- `.get("number", "")` on an optional designator dictionary. -/
def designator_number (d : Option Designator) : String :=
  ((d.getD ⟨none, none⟩).number).getD ""

/-- `_build_segments`: resolve each flight index of each ticket segment
against the leg list (out-of-range indices skipped), taking carrier fields
from the first proposal's flight terms. -/
def build_segments (ticket : Ticket) (proposal_terms : List (String × FlightTerm))
    (flight_legs : List FlightLeg) : List FlightSegment :=
  ticket.segments.foldl (fun acc segment =>
    segment.flights.foldl (fun acc2 flight_index =>
      match safe_index flight_legs flight_index with
      | none => acc2
      | some leg =>
        let term := (al_get (toString flight_index) proposal_terms).getD ⟨none, none⟩
        acc2 ++ [{ departure := leg.origin.getD ""
                   arrival := leg.destination.getD ""
                   departure_date := format_date leg.local_departure_date_time
                   arrival_date := format_date leg.local_arrival_date_time
                   duration := compute_duration leg.departure_unix_timestamp
                     leg.arrival_unix_timestamp
                   number := designator_number term.marketing_carrier_designator
                   marketing_carrier := designator_carrier term.marketing_carrier_designator
                   operating_carrier := designator_carrier
                     leg.operating_carrier_designator }]) acc) []

/-- `_resolve_trip_class`: the `trip_class` of the first flight term, `""`
when there are no terms or the field is absent. -/
def resolve_trip_class (p : Proposal) : String :=
  match p.flight_terms with
  | [] => ""
  | (_, t) :: _ => t.trip_class.getD ""

/-- `_build_baggage` from a minimum-fare dictionary. -/
def build_baggage (min_fare : MinFare) : Baggage :=
  let handbags := min_fare.handbags.getD ⟨none, none⟩
  let baggage := min_fare.baggage.getD ⟨none, none⟩
  { handbags := ⟨handbags.count.getD 0, handbags.weight⟩
    baggage := ⟨baggage.count.getD 0, baggage.weight⟩ }

/-- `_build_rule`: unavailable when the rule dictionary is falsy. -/
def build_rule (data : Option RuleSpec) : RuleInfo :=
  match data with
  | none => ⟨false, false⟩
  | some d => ⟨d.available, d.is_from_config⟩

/-- `_build_rules` from a minimum-fare dictionary. -/
def build_rules (min_fare : MinFare) : Rules :=
  ⟨build_rule min_fare.return_before_flight, build_rule min_fare.change_before_flight⟩

/-- The empty `minimum_fare` dictionary default. -/
def empty_min_fare : MinFare :=
  ⟨none, none, none, none, none, none, none⟩

/-- `_build_fares`: one `Fare` per proposal. -/
def build_fares (proposals : List Proposal) (agents : List (String × String)) : List Fare :=
  proposals.foldl (fun acc p =>
    let min_fare := p.minimum_fare.getD empty_min_fare
    let fare_info : FareInfo :=
      { fare_code := or_string min_fare.fare_code (min_fare.code.getD "")
        trip_class := resolve_trip_class p
        baggage := build_baggage min_fare
        rules := build_rules min_fare }
    acc ++ [{ fare_key := min_fare.fare_key.getD ""
              fare_info := [fare_info]
              prices := [(agent_key (agent_id_str p) agents, price_value p)] }]) []

/-- `ticket.get("signature") or ticket.get("hashsum") or ticket.get("id", "")`. -/
def ticket_key (t : Ticket) : String :=
  or_string t.signature (or_string t.hashsum (t.id.getD ""))

/-- `_build_offer`: `none` when the ticket has no proposals, no resolvable
segments, or no fares; otherwise the assembled `FlightOffer`. -/
def build_offer (ticket : Ticket) (agents : List (String × String))
    (flight_legs : List FlightLeg) : Option FlightOffer :=
  match ticket.proposals with
  | [] => none
  | p :: _ =>
    let segments := build_segments ticket p.flight_terms flight_legs
    if segments.isEmpty then none
    else
      let fares := build_fares ticket.proposals agents
      if fares.isEmpty then none
      else
        let prices := collect_prices ticket.proposals agents
        let mp := extract_min_price prices
        some { is_vtrip := is_vtrip segments
               key := ticket_key ticket
               flight_info := ⟨segments⟩
               fares := fares
               prices := prices
               duration := (segments.map (fun s => s.duration)).sum
               min_price := mp.2
               min_provider := mp.1 }

/-- `_build_route_key`: first segment's departure code, arrival code, and
the first 10 characters of its departure date with dashes removed
(`departure_date[:10].replace("-", "")`). -/
def build_route_key (offer : FlightOffer) : String :=
  match offer.flight_info.forward with
  | [] => ""
  | first_segment :: _ =>
    let departure_date :=
      String.mk ((first_segment.departure_date.data.take 10).filter (fun c => c ≠ '-'))
    first_segment.departure ++ first_segment.arrival ++ departure_date

/-- `defaultdict(list)` append: extend the list under `k` in place, or add a
new key at the end holding `[o]`. -/
def append_offer (m : OffersMap) (k : String) (o : FlightOffer) : OffersMap :=
  if al_has k m then m.map (fun kv => if kv.1 = k then (kv.1, kv.2 ++ [o]) else kv)
  else m ++ [(k, [o])]

/-- `convert_chunk`: empty mapping without a `"tickets"` key; otherwise build
an offer per ticket (skipping `None`s) and group by route key. -/
def convert_chunk (chunk : ProviderChunk) : OffersMap :=
  match chunk.tickets with
  | none => []
  | some tickets =>
    let agents := extract_agents chunk
    tickets.foldl (fun acc ticket =>
      match build_offer ticket agents chunk.flight_legs with
      | none => acc
      | some offer => append_offer acc (build_route_key offer) offer) []

/-! ## Search orchestrator (`FlightSearchService`)

`get_offers` is `async` in the source; its awaited collaborator is modelled
as data: `start_search` as the response value and `get_chunk` as the finite
list of chunks the async generator yields for a task id.  The injected
converter (`self._converter.convert_chunk`) may raise, which is modelled by
letting it return `Except`; the faithful instantiation for the repository's
own converter is `pure_convert` below. -/

/-- The `start_search` provider response: `{success, task_id?}`. -/
structure StartResponse where
  success : Bool
  task_id : Option String
deriving DecidableEq

/-- The Avia API port (`AviaApiProtocol`) as consumed by `get_offers`. -/
structure AviaApi where
  start_search : StartResponse
  get_chunk : String → List ProviderChunk

/-- A converter as injected into the service: a chunk conversion that may
raise (modelled by `Except`). -/
abbrev Converter := ProviderChunk → Except String OffersMap

/-- The repository's own converter, which this embedding makes total. -/
def pure_convert : Converter := fun c => .ok (convert_chunk c)

/-- `_merge_offers` inner step: `target[key].extend(offers)` after creating
`target[key] = []` when the key is new. -/
def extend_at (target : OffersMap) (k : String) (offers : List FlightOffer) : OffersMap :=
  if al_has k target then target.map (fun kv => if kv.1 = k then (kv.1, kv.2 ++ offers) else kv)
  else target ++ [(k, offers)]

/-- `_merge_offers`: fold every route key of the new mapping into the target. -/
def merge_offers (target new : OffersMap) : OffersMap :=
  new.foldl (fun t kv => extend_at t kv.1 kv.2) target

/-- `_convert_chunk`: convert, catching any exception into an empty mapping. -/
def convert_chunk_safe (convert : Converter) (chunk : ProviderChunk) : OffersMap :=
  match convert chunk with
  | .ok m => m
  | .error _ => []

/-- The chunk-accumulation loop of `get_offers`: merge each converted chunk
into the aggregation, starting from the empty mapping. -/
def aggregate_chunks (convert : Converter) (chunks : List ProviderChunk) : OffersMap :=
  chunks.foldl (fun acc c => merge_offers acc (convert_chunk_safe convert c)) []

/-- `pid or self._generate_pid()`: the caller's pid when truthy (present and
non-empty), the generated one otherwise. -/
def resolve_process_id (pid : Option String) (generated_pid : String) : String :=
  match pid with
  | none => generated_pid
  | some p => if p = "" then generated_pid else p

/-- Python truthiness of the optional `task_id` string. -/
def truthy_task_id (t : Option String) : Bool :=
  match t with
  | none => false
  | some s => !(s = "")

/-- `get_offers`: start the search (failure or missing task id yields a
non-exceptional `success=false` response with empty result), then stream,
convert and merge chunks; final success iff some offer list is non-empty.
`generated_pid` stands for the fresh `uuid4().hex` drawn by
`_generate_pid`. -/
def get_offers (convert : Converter) (generated_pid : String) (pid : Option String)
    (api : AviaApi) : ServiceResponse :=
  let process_id := resolve_process_id pid generated_pid
  if api.start_search.success = false then
    { success := false, pid := process_id, result := [] }
  else if truthy_task_id api.start_search.task_id = false then
    { success := false, pid := process_id, result := [] }
  else
    let aggregated := aggregate_chunks convert
      (api.get_chunk (api.start_search.task_id.getD ""))
    { success := aggregated.any (fun kv => !kv.2.isEmpty)
      pid := process_id
      result := aggregated }

/-! ## Background task manager (`BackgroundTaskManager`)

The cache store is modelled as a dictionary from task id to the stored
record; `asyncio.create_task` scheduling is modelled by appending the
pending execution to a `scheduled` list that a separate step would later
consume — `start_task` itself never runs it. -/

/-- `TaskStatus.PROCESSING`. -/
def TaskStatus.PROCESSING : String := "processing"

/-- `TaskStatus.COMPLETED`. -/
def TaskStatus.COMPLETED : String := "completed"

/-- `TaskStatus.FAILED`. -/
def TaskStatus.FAILED : String := "failed"

/-- A task record as written to the cache: the four-key dictionary. -/
structure TaskRecord where
  status : String
  pid : Option String
  result : Option ServiceResponse
  error : Option String
deriving DecidableEq

/-- The manager-visible state: the cache store plus the executions that have
been scheduled but not yet run. -/
structure ManagerState where
  store : List (String × TaskRecord)
  scheduled : List (String × Option String)

/-- `start_task`: obtain a task id, synchronously write the PROCESSING
record, schedule the background processing, and return the id.  `task_id`
stands for the fresh uuid produced by `BackgroundTaskService.start_task`. -/
def start_task (s : ManagerState) (task_id : String) (pid : Option String) :
    String × ManagerState :=
  (task_id,
   { store := al_set s.store task_id
       { status := TaskStatus.PROCESSING, pid := pid, result := none, error := none }
     scheduled := s.scheduled ++ [(task_id, pid)] })

/-- `_process_task`: the terminal write performed by the background
execution — COMPLETED with the result, or FAILED with the error text. -/
def process_task (store : List (String × TaskRecord)) (task_id : String)
    (pid : Option String) (outcome : Except String ServiceResponse) :
    List (String × TaskRecord) :=
  match outcome with
  | .ok result =>
    al_set store task_id
      { status := TaskStatus.COMPLETED, pid := some result.pid
        result := some result, error := none }
  | .error e =>
    al_set store task_id
      { status := TaskStatus.FAILED, pid := pid, result := none, error := some e }

/-- The faults `get_task_response` can raise. -/
inductive TaskFault where
  | task_not_found
  | task_result_missing
  | task_failed (error : Option String)
  | unknown_status (status : String)
deriving DecidableEq

/-- The non-fault outcomes of `get_task_response`: the small status payload
for a PROCESSING task, or the stored `ServiceResponse`. -/
inductive TaskResponse where
  | status_payload (task_id : String) (status : String) (pid : Option String)
  | response (r : ServiceResponse)
deriving DecidableEq

/-- `get_task_response`: dispatch on the stored record's status. -/
def get_task_response (store : List (String × TaskRecord)) (task_id : String) :
    Except TaskFault TaskResponse :=
  match al_get task_id store with
  | none => .error .task_not_found
  | some task_data =>
    if task_data.status = TaskStatus.PROCESSING then
      .ok (.status_payload task_id TaskStatus.PROCESSING task_data.pid)
    else if task_data.status = TaskStatus.COMPLETED then
      match task_data.result with
      | none => .error .task_result_missing
      | some result => .ok (.response result)
    else if task_data.status = TaskStatus.FAILED then
      .error (.task_failed task_data.error)
    else
      .error (.unknown_status task_data.status)

/-! ## Concrete inputs used by witnesses -/

/-- Scenario A chunk: one ticket with one proposal by agent `344` labelled
`OneTwoTrip`, price 1592, one leg MOW→LED departing `2025-12-17 15:30`. -/
def scenario_a_chunk : ProviderChunk :=
  { tickets := some
      [{ proposals :=
           [{ agent_id := some "344"
              flight_terms :=
                [("0", { marketing_carrier_designator := some ⟨some "R0", some "772"⟩
                         trip_class := some "Y" })]
              price := some ⟨some 1592⟩
              minimum_fare := some
                { fare_code := some "Y_1PC36", code := none, fare_key := some "fk"
                  handbags := some ⟨some 1, none⟩, baggage := some ⟨some 1, some 36⟩
                  return_before_flight := some ⟨true, true⟩
                  change_before_flight := some ⟨false, true⟩ } }]
         segments := [{ flights := [0] }]
         signature := some "ZKD_ZLK_2025-12-17T15:30_236_772_R0_"
         hashsum := none
         id := none }]
    flight_legs :=
      [{ origin := some "MOW", destination := some "LED"
         local_departure_date_time := some "2025-12-17 15:30"
         local_arrival_date_time := some "2025-12-17 19:26"
         departure_unix_timestamp := some 1765981800
         arrival_unix_timestamp := some 1765995960
         operating_carrier_designator := some ⟨some "R0", none⟩ }]
    agents := [("344", ⟨some "OneTwoTrip"⟩)] }

/-- A trivial offer value used when witnesses only need some offer. -/
def sample_offer : FlightOffer :=
  { is_vtrip := false, key := "k1", flight_info := ⟨[]⟩, fares := []
    prices := [], duration := 0, min_price := 0, min_provider := "" }

/-- A second trivial offer value distinct from `sample_offer`. -/
def sample_offer_b : FlightOffer :=
  { is_vtrip := false, key := "k2", flight_info := ⟨[]⟩, fares := []
    prices := [], duration := 0, min_price := 0, min_provider := "" }

/-! ## Supporting lemmas -/

theorem al_get_none_of_has_false {β : Type} {k : String} {l : List (String × β)}
    (h : al_has k l = false) : al_get k l = none := by
  have := al_get_append_left h ([] : List (String × β))
  simpa using this

theorem al_get_isSome_of_has {β : Type} {k : String} {l : List (String × β)}
    (h : al_has k l = true) : ∃ v, al_get k l = some v := by
  induction l with
  | nil => simp [al_has] at h
  | cons hd tl ih =>
    by_cases hh : hd.1 = k
    · exact ⟨hd.2, by simp [al_get, hh]⟩
    · exact (ih (by simpa [al_has, hh] using h)).imp
        (fun v hv => by simpa [al_get, hh] using hv)

theorem al_has_iff_mem_keys {β : Type} (k : String) (l : List (String × β)) :
    al_has k l = true ↔ k ∈ al_keys l := by
  induction l with
  | nil => simp [al_has, al_keys]
  | cons hd tl ih =>
    by_cases hh : hd.1 = k
    · simp [al_has, al_keys, hh]
    · simpa [al_has, al_keys, hh, Ne.symm hh] using ih

/-- The first-minimum fold of `_extract_min_price`: its result is the seed or
a list element, and its value is a lower bound of the seed and every element. -/
theorem foldl_min_spec (ps : List (String × Int)) (b : String × Int) :
    (ps.foldl (fun best q => if q.2 < best.2 then q else best) b = b
      ∨ ps.foldl (fun best q => if q.2 < best.2 then q else best) b ∈ ps)
    ∧ (ps.foldl (fun best q => if q.2 < best.2 then q else best) b).2 ≤ b.2
    ∧ ∀ q ∈ ps, (ps.foldl (fun best q => if q.2 < best.2 then q else best) b).2 ≤ q.2 := by
  induction ps generalizing b with
  | nil => exact ⟨Or.inl rfl, le_refl _, by intro q hq; cases hq⟩
  | cons hd tl ih =>
    simp only [List.foldl_cons]
    rcases ih (if hd.2 < b.2 then hd else b) with ⟨hmem, hle, hall⟩
    constructor
    · rcases hmem with h1 | h2
      · rw [h1]
        by_cases hlt : hd.2 < b.2
        · rw [if_pos hlt]; exact Or.inr (List.mem_cons_self hd tl)
        · rw [if_neg hlt]; exact Or.inl rfl
      · exact Or.inr (List.mem_cons_of_mem hd h2)
    · constructor
      · by_cases hlt : hd.2 < b.2
        · calc _ ≤ (if hd.2 < b.2 then hd else b).2 := hle
            _ ≤ b.2 := by rw [if_pos hlt]; exact le_of_lt hlt
        · simpa [if_neg hlt] using hle
      · intro q hq
        rcases List.mem_cons.mp hq with h1 | h2
        · subst h1
          by_cases hlt : q.2 < b.2
          · simpa [if_pos hlt] using hle
          · calc _ ≤ (if q.2 < b.2 then q else b).2 := hle
              _ ≤ q.2 := by rw [if_neg hlt]; omega
        · exact hall q h2

/-- `_extract_min_price` on a non-empty dictionary picks an entry whose value
bounds every stored price from below. -/
theorem extract_min_price_spec (prices : List (String × Int)) (h : prices ≠ []) :
    extract_min_price prices ∈ prices
    ∧ ∀ kv ∈ prices, (extract_min_price prices).2 ≤ kv.2 := by
  match prices with
  | [] => exact absurd rfl h
  | p :: ps =>
    rcases foldl_min_spec ps p with ⟨hmem, hle, hall⟩
    have hdef : extract_min_price (p :: ps) =
        ps.foldl (fun best q => if q.2 < best.2 then q else best) p := rfl
    refine ⟨?_, ?_⟩
    · rw [hdef]
      rcases hmem with h1 | h2
      · rw [h1]; exact List.mem_cons_self p ps
      · exact List.mem_cons_of_mem p h2
    · intro kv hkv
      rw [hdef]
      rcases List.mem_cons.mp hkv with h1 | h2
      · subst h1; exact hle
      · exact hall kv h2

/-- `_collect_prices` never stores duplicate provider labels. -/
theorem collect_prices_nodup (proposals : List Proposal)
    (agents : List (String × String)) : al_nodup (collect_prices proposals agents) := by
  unfold collect_prices
  have aux : ∀ (ps : List Proposal) (acc : List (String × Int)), al_nodup acc →
      al_nodup (ps.foldl
        (fun acc p => al_set acc (agent_key (agent_id_str p) agents) (price_value p)) acc) := by
    intro ps
    induction ps with
    | nil => intro acc h; exact h
    | cons p rest ih =>
      intro acc h
      exact ih _ (al_nodup_set h _ _)
  exact aux proposals [] (by simp [al_nodup, al_keys])

/-! ## Claim C5 -/

/-- C5 counterexample: the code computes `int((arrival - departure)/60)`,
truncation toward zero, which differs from the claimed floor on a negative
difference: departure 100, arrival 10 give −1, while the floor is −2. -/
theorem c5_counterexample :
    ¬ (compute_duration (some 100) (some 10) = Int.fdiv ((10 : Int) - 100) 60) := by
  decide

/-- C5 (amended): for present, non-zero timestamps the segment duration is
`(arrival − departure)/60` truncated toward zero, which agrees with the
claimed floor whenever the arrival is not before the departure; the duration
is 0 whenever either timestamp is absent. -/
theorem c5_duration_truncates (d a : Int) (hd : d ≠ 0) (ha : a ≠ 0) :
    compute_duration (some d) (some a) = Int.tdiv (a - d) 60
    ∧ (d ≤ a → compute_duration (some d) (some a) = Int.fdiv (a - d) 60)
    ∧ (∀ x : Option Int, compute_duration none x = 0 ∧ compute_duration x none = 0) := by
  refine ⟨by simp [compute_duration, hd, ha], ?_, ?_⟩
  · intro hda
    have h1 : compute_duration (some d) (some a) = Int.tdiv (a - d) 60 := by
      simp [compute_duration, hd, ha]
    rw [h1, Int.fdiv_eq_tdiv (by omega) (by norm_num)]
  · intro x
    refine ⟨rfl, ?_⟩
    cases x <;> rfl

/-- C5 witness: a concrete instantiation of the amended theorem. -/
theorem c5_witness :
    compute_duration (some 100) (some 250) = Int.tdiv ((250 : Int) - 100) 60 :=
  (c5_duration_truncates 100 250 (by decide) (by decide)).1

/-! ## Claim C6 -/

/-- C6: `is_vtrip` is true exactly when there is more than one segment and
some segment's marketing carrier differs from its own operating carrier; any
list of at most one segment yields false. -/
theorem c6_is_vtrip_iff (segments : List FlightSegment) :
    (is_vtrip segments = true ↔
      1 < segments.length
      ∧ ∃ seg ∈ segments, seg.marketing_carrier ≠ seg.operating_carrier)
    ∧ (segments.length ≤ 1 → is_vtrip segments = false) := by
  constructor
  · unfold is_vtrip
    by_cases h : segments.length ≤ 1
    · rw [if_pos h]
      constructor
      · intro hf; exact absurd hf (by decide)
      · rintro ⟨hlt, -⟩; exact absurd hlt (by omega)
    · simp only [if_neg h, List.any_eq_true, bne_iff_ne]
      constructor
      · intro ⟨seg, hs, hne⟩
        exact ⟨by omega, seg, hs, hne⟩
      · intro ⟨_, seg, hs, hne⟩
        exact ⟨seg, hs, hne⟩
  · intro h
    simp [is_vtrip, h]

/-- C6 witness: a concrete one-segment list is not a virtual trip. -/
theorem c6_witness :
    is_vtrip [{ departure := "MOW", arrival := "LED", departure_date := ""
                arrival_date := "", duration := 0, number := ""
                marketing_carrier := "SU", operating_carrier := "FV" }] = false :=
  (c6_is_vtrip_iff _).2 (by decide)

/-! ## Claim C7 -/

/-- C7: the route key of any offer with at least one segment is the first
segment's departure code, then its arrival code, then the first 10
characters of its departure date with dashes removed; on the Scenario A
chunk the converter groups its single offer under `"MOWLED20251217"`. -/
theorem c7_route_key :
    (∀ (o : FlightOffer) (s : FlightSegment) (rest : List FlightSegment),
       o.flight_info.forward = s :: rest →
       build_route_key o =
         s.departure ++ s.arrival
           ++ String.mk ((s.departure_date.data.take 10).filter (fun c => c ≠ '-')))
    ∧ (convert_chunk scenario_a_chunk).map Prod.fst = ["MOWLED20251217"] := by
  constructor
  · intro o s rest h
    unfold build_route_key
    rw [h]
  · rfl

/-- The first segment used by the C7 witness. -/
def c7_segment : FlightSegment :=
  { departure := "MOW", arrival := "LED", departure_date := "2025-12-17T15:30"
    arrival_date := "2025-12-17T19:26", duration := 236, number := "772"
    marketing_carrier := "R0", operating_carrier := "R0" }

/-- The offer used by the C7 witness. -/
def c7_offer : FlightOffer :=
  { is_vtrip := false, key := "t", flight_info := ⟨[c7_segment]⟩, fares := []
    prices := [], duration := 236, min_price := 0, min_provider := "" }

/-- C7 witness: the route key of a concrete MOW→LED offer departing
2025-12-17. -/
theorem c7_witness : build_route_key c7_offer = "MOWLED20251217" := by
  rw [c7_route_key.1 c7_offer c7_segment [] rfl]
  rfl

/-! ## Claim C8 -/

/-- C8: `start_task` returns the fresh task id after synchronously writing
the PROCESSING record (result and error unset) to the store and appending
the background execution to the scheduled list without running it; reading
the returned id immediately after therefore yields the PROCESSING status
payload, never COMPLETED or FAILED. -/
theorem c8_start_task_processing (s : ManagerState) (task_id : String)
    (pid : Option String) :
    (start_task s task_id pid).1 = task_id
    ∧ al_get task_id (start_task s task_id pid).2.store =
        some { status := TaskStatus.PROCESSING, pid := pid, result := none, error := none }
    ∧ get_task_response (start_task s task_id pid).2.store task_id =
        .ok (.status_payload task_id TaskStatus.PROCESSING pid)
    ∧ (start_task s task_id pid).2.scheduled = s.scheduled ++ [(task_id, pid)] := by
  refine ⟨rfl, ?_, ?_, rfl⟩
  · exact al_get_set_self s.store task_id _
  · unfold get_task_response
    rw [show (start_task s task_id pid).2.store =
        al_set s.store task_id
          { status := TaskStatus.PROCESSING, pid := pid, result := none, error := none }
      from rfl]
    rw [al_get_set_self]
    simp

/-! ## Claim C3 -/

/-- C3: `get_task_response` is determined by the stored record — not-found
fault on an absent id; the status payload for PROCESSING; the stored
response for COMPLETED with a result; the result-missing fault for
COMPLETED without one; the task-failed fault carrying the stored error for
FAILED; the unknown-status fault for anything else.  These cases are
exhaustive, so it raises in no other case. -/
theorem c3_get_task_response_cases (store : List (String × TaskRecord))
    (task_id : String) :
    (al_get task_id store = none →
       get_task_response store task_id = .error .task_not_found)
    ∧ ∀ d, al_get task_id store = some d →
        ((d.status = TaskStatus.PROCESSING →
            get_task_response store task_id =
              .ok (.status_payload task_id TaskStatus.PROCESSING d.pid))
         ∧ (d.status = TaskStatus.COMPLETED → ∀ r, d.result = some r →
              get_task_response store task_id = .ok (.response r))
         ∧ (d.status = TaskStatus.COMPLETED → d.result = none →
              get_task_response store task_id = .error .task_result_missing)
         ∧ (d.status = TaskStatus.FAILED →
              get_task_response store task_id = .error (.task_failed d.error))
         ∧ (d.status ≠ TaskStatus.PROCESSING → d.status ≠ TaskStatus.COMPLETED →
              d.status ≠ TaskStatus.FAILED →
              get_task_response store task_id = .error (.unknown_status d.status))) := by
  have hpc : TaskStatus.COMPLETED ≠ TaskStatus.PROCESSING := by decide
  have hfp : TaskStatus.FAILED ≠ TaskStatus.PROCESSING := by decide
  have hfc : TaskStatus.FAILED ≠ TaskStatus.COMPLETED := by decide
  constructor
  · intro h
    unfold get_task_response
    rw [h]
  · intro d hd
    refine ⟨?_, ?_, ?_, ?_, ?_⟩
    · intro hs
      simp [get_task_response, hd, hs]
    · intro hs r hr
      simp [get_task_response, hd, hs, hr, hpc]
    · intro hs hr
      simp [get_task_response, hd, hs, hr, hpc]
    · intro hs
      simp [get_task_response, hd, hs, hfp, hfc]
    · intro h1 h2 h3
      simp [get_task_response, hd, h1, h2, h3]

/-- The store used by the C3 witness. -/
def c3_store : List (String × TaskRecord) :=
  [("t1", { status := TaskStatus.PROCESSING, pid := some "p7", result := none
            error := none })]

/-- C3 witness: reading a stored PROCESSING record yields the status
payload. -/
theorem c3_witness :
    get_task_response c3_store "t1" =
      .ok (.status_payload "t1" TaskStatus.PROCESSING (some "p7")) :=
  ((c3_get_task_response_cases c3_store "t1").2
    { status := TaskStatus.PROCESSING, pid := some "p7", result := none, error := none }
    (by decide)).1 (by decide)

/-! ## Claim C4 -/

/-- An Avia API whose `start_search` reports failure, for the C4
counterexample. -/
def c4_fail_api : AviaApi :=
  { start_search := { success := false, task_id := none }, get_chunk := fun _ => [] }

/-- C4 counterexample: with a failing `start_search` and the caller-supplied
pid `""`, the response does not echo the caller's pid — `pid or generate`
replaces the falsy empty string with the generated pid. -/
theorem c4_counterexample :
    ¬ ((get_offers pure_convert "generated" (some "") c4_fail_api).pid = "") := by
  decide

/-- C4 (amended): whenever the provider's `start_search` reports failure or
yields no (or an empty) task id, `get_offers` returns `success = false` with
an empty result mapping — and no exception, being a total function — with
pid equal to the caller-supplied pid when given and non-empty, and the
freshly generated one when the caller's pid is absent or empty. -/
theorem c4_start_failure (convert : Converter) (generated_pid : String)
    (pid : Option String) (api : AviaApi)
    (h : api.start_search.success = false ∨ api.start_search.task_id = none
         ∨ api.start_search.task_id = some "") :
    get_offers convert generated_pid pid api =
      { success := false, pid := resolve_process_id pid generated_pid, result := [] }
    ∧ (∀ p, p ≠ "" → resolve_process_id (some p) generated_pid = p)
    ∧ resolve_process_id none generated_pid = generated_pid
    ∧ resolve_process_id (some "") generated_pid = generated_pid := by
  refine ⟨?_, ?_, rfl, rfl⟩
  · unfold get_offers
    rcases h with h1 | h2 | h3
    · rw [if_pos h1]
    · by_cases hs : api.start_search.success = false
      · rw [if_pos hs]
      · rw [if_neg hs, if_pos (by rw [h2]; rfl)]
    · by_cases hs : api.start_search.success = false
      · rw [if_pos hs]
      · rw [if_neg hs, if_pos (by rw [h3]; rfl)]
  · intro p hp
    simp [resolve_process_id, hp]

/-- C4 witness: a failing start with a caller-supplied non-empty pid is
echoed back with an empty result. -/
theorem c4_witness :
    get_offers pure_convert "g1" (some "caller") c4_fail_api =
      { success := false, pid := "caller", result := [] } :=
  (c4_start_failure pure_convert "g1" (some "caller") c4_fail_api (Or.inl rfl)).1

/-! ## Merge lemmas -/

theorem al_get_map_ne {β : Type} {k k' : String} (hne : k' ≠ k) (f : β → β)
    (t : List (String × β)) :
    al_get k (t.map (fun kv => if kv.1 = k' then (kv.1, f kv.2) else kv)) = al_get k t := by
  have hne2 : k ≠ k' := Ne.symm hne
  induction t with
  | nil => rfl
  | cons hd tl ih =>
    by_cases h1 : hd.1 = k'
    · have h2 : hd.1 ≠ k := by rw [h1]; exact hne
      simp [al_get, h1, h2, hne, hne2, ih]
    · by_cases h2 : hd.1 = k
      · simp [al_get, h1, h2, hne, hne2]
      · simp [al_get, h1, h2, ih]

theorem al_get_map_self {β : Type} {k : String} {t : List (String × β)}
    (h : al_has k t = true) (f : β → β) :
    al_get k (t.map (fun kv => if kv.1 = k then (kv.1, f kv.2) else kv)) =
      (al_get k t).map f := by
  induction t with
  | nil => simp [al_has] at h
  | cons hd tl ih =>
    by_cases h1 : hd.1 = k
    · simp [al_get, h1]
    · simpa [al_get, h1] using ih (by simpa [al_has, h1] using h)

theorem al_keys_map_value {β : Type} (k : String) (f : β → β) (t : List (String × β)) :
    al_keys (t.map (fun kv => if kv.1 = k then (kv.1, f kv.2) else kv)) = al_keys t := by
  induction t with
  | nil => rfl
  | cons hd tl ih =>
    by_cases h1 : hd.1 = k
    · simp [al_keys, h1] at ih ⊢; exact ih
    · simp [al_keys, h1] at ih ⊢; exact ih

theorem al_nodup_append_new {β : Type} {t : List (String × β)} {k : String}
    (h : al_nodup t) (hh : al_has k t = false) (v : β) : al_nodup (t ++ [(k, v)]) := by
  unfold al_nodup al_keys at h ⊢
  rw [List.map_append]
  simp only [List.map_cons, List.map_nil]
  rw [List.nodup_append]
  refine ⟨h, List.nodup_singleton k, ?_⟩
  intro a ha hb
  simp only [List.mem_singleton] at hb
  subst hb
  rcases List.mem_map.mp ha with ⟨kv, hkv, hfst⟩
  have := al_has_false_ne hh kv hkv
  rw [hfst] at this
  exact this rfl

/-- Per-key result of `target[key] = target.get(key, []) + offers`. -/
theorem extend_at_lookup (t : OffersMap) (k k' : String) (offers : List FlightOffer) :
    (al_get k (extend_at t k' offers)).getD [] =
      if k' = k then (al_get k t).getD [] ++ offers else (al_get k t).getD [] := by
  unfold extend_at
  by_cases hk : k' = k
  · subst hk
    rw [if_pos rfl]
    by_cases hh : al_has k' t
    · rw [if_pos hh, al_get_map_self hh (fun v => v ++ offers)]
      rcases al_get_isSome_of_has hh with ⟨v, hv⟩
      rw [hv]
      rfl
    · have hfalse : al_has k' t = false := by simpa using hh
      rw [if_neg hh, al_get_append_left hfalse, al_get_none_of_has_false hfalse]
      simp [al_get]
  · rw [if_neg hk]
    by_cases hh : al_has k' t
    · rw [if_pos hh, al_get_map_ne hk (fun v => v ++ offers) t]
    · rw [if_neg hh, al_get_append_single_ne hk]

/-- `_merge_offers`, per key: the target's existing list followed by the new
mapping's list, provided the new mapping has no duplicate keys (it is a
dictionary image). -/
theorem merge_offers_lookup (new : OffersMap) :
    ∀ (target : OffersMap) (k : String), al_nodup new →
      (al_get k (merge_offers target new)).getD [] =
        (al_get k target).getD [] ++ (al_get k new).getD [] := by
  induction new with
  | nil => intro t k _; simp [merge_offers, al_get]
  | cons kv rest ih =>
    intro t k hn
    have hn0 : kv.1 ∉ List.map Prod.fst rest ∧ (List.map Prod.fst rest).Nodup := by
      have h0 := hn
      unfold al_nodup al_keys at h0
      simp only [List.map_cons, List.nodup_cons] at h0
      exact h0
    have hn1 : al_nodup rest := hn0.2
    have hstep : merge_offers t (kv :: rest) = merge_offers (extend_at t kv.1 kv.2) rest := rfl
    rw [hstep, ih _ k hn1, extend_at_lookup]
    by_cases hk : kv.1 = k
    · subst hk
      have hr : al_get kv.1 rest = none := by
        apply al_get_none_of_has_false
        rcases Bool.eq_false_or_eq_true (al_has kv.1 rest) with h | h
        · exact absurd ((al_has_iff_mem_keys kv.1 rest).mp h) hn0.1
        · exact h
      rw [if_pos rfl, hr]
      simp [al_get]
    · rw [if_neg hk]
      simp [al_get, hk]

theorem append_offer_nodup {m : OffersMap} (h : al_nodup m) (k : String)
    (o : FlightOffer) : al_nodup (append_offer m k o) := by
  unfold append_offer
  by_cases hh : al_has k m
  · rw [if_pos hh]
    unfold al_nodup
    rw [al_keys_map_value k (fun v => v ++ [o]) m]
    exact h
  · rw [if_neg hh]
    exact al_nodup_append_new h (by simpa using hh) [o]

/-- The converter's grouped output is a dictionary image: no duplicate
route keys. -/
theorem convert_chunk_nodup (chunk : ProviderChunk) : al_nodup (convert_chunk chunk) := by
  unfold convert_chunk
  match chunk.tickets with
  | none => simp [al_nodup, al_keys]
  | some tickets =>
    have aux : ∀ (ts : List Ticket) (acc : OffersMap), al_nodup acc →
        al_nodup (ts.foldl (fun acc ticket =>
          match build_offer ticket (extract_agents chunk) chunk.flight_legs with
          | none => acc
          | some offer => append_offer acc (build_route_key offer) offer) acc) := by
      intro ts
      induction ts with
      | nil => intro acc h; exact h
      | cons t rest ih =>
        intro acc h
        rw [List.foldl_cons]
        apply ih
        show al_nodup (match build_offer t (extract_agents chunk) chunk.flight_legs with
          | none => acc
          | some offer => append_offer acc (build_route_key offer) offer)
        cases hb : build_offer t (extract_agents chunk) chunk.flight_legs with
        | none => simp only [hb]; exact h
        | some offer => simp only [hb]; exact append_offer_nodup h (build_route_key offer) offer
    exact aux tickets [] (by simp [al_nodup, al_keys])

/-! ## Claim C2 -/

/-- C2: merging appends per route key — the merged list under any key is the
target's existing list followed by the new chunk's list, preserving order
and multiplicity; in particular the offers of two converted chunks sharing a
route key are concatenated, first chunk's offers first. -/
theorem c2_merge_appends :
    (∀ (target new : OffersMap) (k : String), al_nodup new →
       (al_get k (merge_offers target new)).getD [] =
         (al_get k target).getD [] ++ (al_get k new).getD [])
    ∧ ∀ (c1 c2 : ProviderChunk) (k : String),
        (al_get k (merge_offers (convert_chunk c1) (convert_chunk c2))).getD [] =
          (al_get k (convert_chunk c1)).getD [] ++ (al_get k (convert_chunk c2)).getD [] :=
  ⟨fun target new k hn => merge_offers_lookup new target k hn,
   fun c1 c2 k =>
     merge_offers_lookup (convert_chunk c2) (convert_chunk c1) k (convert_chunk_nodup c2)⟩

/-- C2 witness: merging two singleton mappings under the same key keeps both
offers, the target's first. -/
theorem c2_witness :
    (al_get "K" (merge_offers [("K", [sample_offer])] [("K", [sample_offer_b])])).getD [] =
      [sample_offer, sample_offer_b] :=
  c2_merge_appends.1 [("K", [sample_offer])] [("K", [sample_offer_b])] "K"
    (by unfold al_nodup al_keys; decide)

/-! ## Claim C9 -/

/-- `get_offers` under a successful session start streams, converts and
merges the chunks. -/
theorem get_offers_streams (convert : Converter) (generated_pid : String)
    (pid : Option String) (api : AviaApi) (t : String)
    (hs : api.start_search.success = true) (ht : api.start_search.task_id = some t)
    (hne : t ≠ "") :
    get_offers convert generated_pid pid api =
      { success := (aggregate_chunks convert (api.get_chunk t)).any (fun kv => !kv.2.isEmpty)
        pid := resolve_process_id pid generated_pid
        result := aggregate_chunks convert (api.get_chunk t) } := by
  unfold get_offers
  rw [if_neg (by rw [hs]; exact (by decide : ¬ (true = false)))]
  rw [ht]
  have htr : truthy_task_id (some t) = true := by simp [truthy_task_id, hne]
  rw [if_neg (by rw [htr]; decide)]
  simp

/-- C9: a chunk whose conversion raises contributes an empty mapping, the
aggregation over the stream is as if the chunk were absent, and `get_offers`
— a total function, so no exception escapes it — returns the same response
with or without the failing chunk. -/
theorem c9_chunk_failure (convert : Converter) (c : ProviderChunk) (e : String)
    (h : convert c = .error e) (s1 s2 : List ProviderChunk) :
    convert_chunk_safe convert c = []
    ∧ aggregate_chunks convert (s1 ++ c :: s2) = aggregate_chunks convert (s1 ++ s2)
    ∧ ∀ (generated_pid : String) (pid : Option String),
        get_offers convert generated_pid pid
          { start_search := { success := true, task_id := some "task" }
            get_chunk := fun _ => s1 ++ c :: s2 } =
        get_offers convert generated_pid pid
          { start_search := { success := true, task_id := some "task" }
            get_chunk := fun _ => s1 ++ s2 } := by
  have hsafe : convert_chunk_safe convert c = [] := by
    unfold convert_chunk_safe
    rw [h]
  have hagg : aggregate_chunks convert (s1 ++ c :: s2) = aggregate_chunks convert (s1 ++ s2) := by
    unfold aggregate_chunks
    rw [List.foldl_append, List.foldl_append, List.foldl_cons, hsafe]
    rfl
  refine ⟨hsafe, hagg, ?_⟩
  intro generated_pid pid
  rw [get_offers_streams convert generated_pid pid _ "task" rfl rfl (by decide),
    get_offers_streams convert generated_pid pid _ "task" rfl rfl (by decide)]
  simp only []
  rw [hagg]

/-- The converter used by the C9 witness: it raises on every chunk. -/
def c9_bad_convert : Converter := fun _ => .error "boom"

/-- C9 witness: a stream consisting solely of a failing chunk aggregates to
the same (empty) mapping as the empty stream. -/
theorem c9_witness :
    aggregate_chunks c9_bad_convert [scenario_a_chunk] =
      aggregate_chunks c9_bad_convert [] :=
  (c9_chunk_failure c9_bad_convert scenario_a_chunk "boom" rfl [] []).2.1

/-! ## Claim C10 -/

/-- First proposal of the C10 demonstration: label `A`, price 100. -/
def c10_p1 : Proposal :=
  { agent_id := some "A", flight_terms := [], price := some ⟨some 100⟩, minimum_fare := none }

/-- Second proposal of the C10 demonstration: same label `A`, price 500. -/
def c10_p2 : Proposal :=
  { agent_id := some "A", flight_terms := [], price := some ⟨some 500⟩, minimum_fare := none }

/-- C10: the price stored under any provider label is exactly the price of
the LAST proposal resolving to that label (last write wins); concretely, two
proposals with the same label and prices 100 then 500 leave only 500 in the
mapping, so the extracted minimum is 500, not the lost earlier 100. -/
theorem c10_last_write_wins :
    (∀ (proposals : List Proposal) (agents : List (String × String)) (label : String),
       al_get label (collect_prices proposals agents) =
         (proposals.reverse.find?
             (fun p => agent_key (agent_id_str p) agents == label)).map price_value)
    ∧ collect_prices [c10_p1, c10_p2] [] = [("A", 500)]
    ∧ extract_min_price (collect_prices [c10_p1, c10_p2] []) = ("A", 500) := by
  have aux : ∀ (agents : List (String × String)) (label : String) (ps : List Proposal)
      (acc : List (String × Int)),
      al_get label (ps.foldl (fun acc p =>
          al_set acc (agent_key (agent_id_str p) agents) (price_value p)) acc) =
        ((ps.reverse.find? (fun p => agent_key (agent_id_str p) agents == label)).map
          price_value).or (al_get label acc) := by
    intro agents label ps
    induction ps with
    | nil => intro acc; simp
    | cons p rest ih =>
      intro acc
      rw [List.foldl_cons, ih, List.reverse_cons, List.find?_append]
      cases hf : rest.reverse.find? (fun p => agent_key (agent_id_str p) agents == label) with
      | some q => simp [Option.or]
      | none =>
        by_cases hp : agent_key (agent_id_str p) agents = label
        · rw [List.find?_cons_of_pos _ (by simp [hp]), hp, al_get_set_self]
          simp [Option.or]
        · rw [List.find?_cons_of_neg _ (by simp [hp]),
            al_get_set_ne acc hp (price_value p)]
          simp [Option.or]
  refine ⟨?_, rfl, rfl⟩
  intro proposals agents label
  rw [show collect_prices proposals agents = proposals.foldl (fun acc p =>
      al_set acc (agent_key (agent_id_str p) agents) (price_value p)) [] from rfl]
  rw [aux agents label proposals []]
  simp [al_get]

/-! ## Claim C1 -/

/-- An offer lies somewhere in a grouped offers mapping. -/
def offer_mem (o : FlightOffer) (m : OffersMap) : Prop :=
  ∃ kv ∈ m, o ∈ kv.2

instance (o : FlightOffer) (m : OffersMap) : Decidable (offer_mem o m) := by
  unfold offer_mem
  infer_instance

/-- `_build_offer` copies `_collect_prices`' mapping into the offer and its
`_extract_min_price` result into `min_provider`/`min_price`. -/
theorem build_offer_fields {ticket : Ticket} {agents : List (String × String)}
    {flight_legs : List FlightLeg} {o : FlightOffer}
    (h : build_offer ticket agents flight_legs = some o) :
    o.prices = collect_prices ticket.proposals agents
    ∧ o.min_provider = (extract_min_price (collect_prices ticket.proposals agents)).1
    ∧ o.min_price = (extract_min_price (collect_prices ticket.proposals agents)).2 := by
  unfold build_offer at h
  split at h
  · cases h
  · simp only [] at h
    split at h
    · cases h
    · split at h
      · cases h
      · injection h with h
        subst h
        exact ⟨rfl, rfl, rfl⟩

/-- Membership in an `append_offer` result comes from the original mapping
or is the appended offer. -/
theorem offer_mem_append_offer {o o' : FlightOffer} {m : OffersMap} {k : String}
    (h : offer_mem o (append_offer m k o')) : offer_mem o m ∨ o = o' := by
  unfold append_offer at h
  by_cases hh : al_has k m
  · rw [if_pos hh] at h
    rcases h with ⟨kv, hkv, ho⟩
    rcases List.mem_map.mp hkv with ⟨kv0, hkv0, heq⟩
    by_cases hk : kv0.1 = k
    · rw [if_pos hk] at heq
      subst heq
      rcases List.mem_append.mp ho with h1 | h2
      · exact Or.inl ⟨kv0, hkv0, h1⟩
      · simp only [List.mem_singleton] at h2
        exact Or.inr h2
    · rw [if_neg hk] at heq
      subst heq
      exact Or.inl ⟨kv0, hkv0, ho⟩
  · rw [if_neg hh] at h
    rcases h with ⟨kv, hkv, ho⟩
    rcases List.mem_append.mp hkv with h1 | h2
    · exact Or.inl ⟨kv, h1, ho⟩
    · simp only [List.mem_singleton] at h2
      subst h2
      simp only [List.mem_singleton] at ho
      exact Or.inr ho

/-- Every offer appearing in `convert_chunk`'s output was produced by
`_build_offer` on some ticket with the chunk's agents and legs. -/
theorem convert_chunk_mem {chunk : ProviderChunk} {o : FlightOffer}
    (h : offer_mem o (convert_chunk chunk)) :
    ∃ t, build_offer t (extract_agents chunk) chunk.flight_legs = some o := by
  unfold convert_chunk at h
  cases ht : chunk.tickets with
  | none =>
    rw [ht] at h
    rcases h with ⟨kv, hkv, -⟩
    cases hkv
  | some tickets =>
    rw [ht] at h
    have aux : ∀ (ts : List Ticket) (acc : OffersMap),
        offer_mem o (ts.foldl (fun acc ticket =>
          match build_offer ticket (extract_agents chunk) chunk.flight_legs with
          | none => acc
          | some offer => append_offer acc (build_route_key offer) offer) acc) →
        offer_mem o acc
        ∨ ∃ t, build_offer t (extract_agents chunk) chunk.flight_legs = some o := by
      intro ts
      induction ts with
      | nil => intro acc h; exact Or.inl h
      | cons t rest ih =>
        intro acc h
        rw [List.foldl_cons] at h
        rcases ih _ h with h1 | h2
        · revert h1
          show offer_mem o (match build_offer t (extract_agents chunk) chunk.flight_legs with
            | none => acc
            | some offer => append_offer acc (build_route_key offer) offer) → _
          cases hb : build_offer t (extract_agents chunk) chunk.flight_legs with
          | none => intro h1; exact Or.inl h1
          | some offer =>
            intro h1
            rcases offer_mem_append_offer h1 with hm | he
            · exact Or.inl hm
            · rw [← he] at hb
              exact Or.inr ⟨t, hb⟩
        · exact Or.inr h2
    rcases aux tickets [] h with h1 | h2
    · rcases h1 with ⟨kv, hkv, -⟩
      cases hkv
    · exact h2

/-- C1: for every offer produced by the converter, when the price mapping is
non-empty `min_provider` is one of its keys, `min_price` is the price stored
under it, and `min_price` bounds every stored price from below; when the
mapping is empty, `min_price` is 0 and `min_provider` the empty string. -/
theorem c1_min_price_argmin (chunk : ProviderChunk) (o : FlightOffer)
    (h : offer_mem o (convert_chunk chunk)) :
    (o.prices ≠ [] →
       al_get o.min_provider o.prices = some o.min_price
       ∧ ∀ kv ∈ o.prices, o.min_price ≤ kv.2)
    ∧ (o.prices = [] → o.min_price = 0 ∧ o.min_provider = "") := by
  rcases convert_chunk_mem h with ⟨t, hb⟩
  rcases build_offer_fields hb with ⟨hp, hprov, hprice⟩
  constructor
  · intro hne
    have hne2 : collect_prices t.proposals (extract_agents chunk) ≠ [] := by
      rw [← hp]; exact hne
    rcases extract_min_price_spec _ hne2 with ⟨hmem, hall⟩
    constructor
    · rw [hp, hprov, hprice]
      apply al_get_of_mem_nodup (collect_prices_nodup _ _)
      simpa using hmem
    · intro kv hkv
      rw [hprice]
      apply hall
      rw [← hp]
      exact hkv
  · intro hempty
    rw [hp] at hempty
    rw [hprice, hprov, hempty]
    exact ⟨rfl, rfl⟩

/-- The single offer the converter produces from the Scenario A chunk. -/
def c1_offer : FlightOffer :=
  ((convert_chunk scenario_a_chunk).headD ("", [])).2.headD sample_offer

/-- C1 witness: on the Scenario A chunk the produced offer's minimum is the
stored price of its minimal provider, concretely 1592. -/
theorem c1_witness :
    c1_offer.prices ≠ []
    ∧ al_get c1_offer.min_provider c1_offer.prices = some c1_offer.min_price
    ∧ c1_offer.min_price = 1592 :=
  ⟨by decide,
   ((c1_min_price_argmin scenario_a_chunk c1_offer (by decide)).1 (by decide)).1,
   by decide⟩

end FlySearch
